import Mathlib

/-!
Shallow embedding of `aws-simple-sso` (src/index.js) and verification of its
specification claims.

Modelling conventions:
* Times (`Date.now()`, `new Date(n)`, expiration fields) are epoch milliseconds,
  modelled as `Int`.  `new Date(x) > new Date()` on a cached entry is the strict
  comparison `now < expireTime`.
* The persistent `localStorage` cache is a map from string keys to parsed
  values.  A stored string is either JSON that parses to a token cache entry,
  JSON that parses to a start-URL list, or a corrupt string on which
  `JSON.parse` throws.
* Remote collaborators (`registerClient`, `startDeviceAuthorization`,
  `createToken`, `listAccounts`, `listAccountRoles`, `getRoleCredentials`) and
  the interactive `prompts` chooser are an explicit environment record; each
  operation returns its result together with a trace (cache after the call,
  choices presented to the chooser, number of text prompts, network calls,
  poll attempts, delays performed).
* JS exceptions are `Except` errors; `await` rethrowing is `Except` bind.
-/

namespace AwsSimpleSso

/-- `SSOOrgUrl` record: `{name, startUrl, region}`.  `startUrl` is `none` for
the sentinel entry `{ name: 'Add a new startUrl', startUrl: null }`, whose
`region` field is absent. -/
structure SSOOrgUrl where
  name : String
  startUrl : Option String
  region : Option String
deriving Repr, DecidableEq

/-- The token returned by `oidc.createToken` (fields used by the library). -/
structure SSOToken where
  accessToken : String
  expiresIn : Nat
deriving Repr, DecidableEq

/-- The record `JSON.stringify({ token, expireTime })` written by `getToken`
under the cache key. -/
structure TokenCacheEntry where
  token : SSOToken
  expireTime : Int
deriving Repr, DecidableEq

/-- A parsed cache value: a token entry, a start-URL list, or a string on
which `JSON.parse` throws. -/
inductive CacheVal where
  | tokenEntry (e : TokenCacheEntry)
  | urlList (l : List SSOOrgUrl)
  | corrupt (raw : String)
deriving Repr, DecidableEq

/-- The `localStorage` key-value store. -/
abbrev Cache := String → Option CacheVal

/-- `localStorage.setItem`. -/
def Cache.set (c : Cache) (k : String) (v : CacheVal) : Cache :=
  fun k2 => if k2 = k then some v else c k2

/-- An account element as returned by `sso.listAccounts`. -/
structure RawAccount where
  accountId : String
  accountName : String
deriving Repr, DecidableEq

/-- The `SSOAccount` record `{accountId, name}` built by `getAccount`. -/
structure SSOAccount where
  accountId : String
  name : String
deriving Repr, DecidableEq

/-- A role element as returned by `sso.listAccountRoles`. -/
structure RawRole where
  roleName : String
deriving Repr, DecidableEq

/-- The `SSORole` record `{accountId, name}` built by `getRole`. -/
structure SSORole where
  accountId : String
  name : String
deriving Repr, DecidableEq

/-- The `roleCredentials` payload of `sso.getRoleCredentials`; `expiration`
is an epoch-millisecond number. -/
structure RawRoleCredentials where
  accessKeyId : String
  secretAccessKey : String
  sessionToken : String
  expiration : Int
deriving Repr, DecidableEq

/-- The `SSOCredentials` record returned by `getRoleCredentials`;
`expireTime` models `new Date(creds.roleCredentials.expiration)` as the
epoch-millisecond value itself. -/
structure SSOCredentials where
  accessKeyId : String
  secretAccessKey : String
  sessionToken : String
  expireTime : Int
deriving Repr, DecidableEq

/-- Result of `oidc.registerClient`. -/
structure RegClient where
  clientId : String
  clientSecret : String
deriving Repr, DecidableEq

/-- Result of `oidc.startDeviceAuthorization`. -/
structure DeviceAuth where
  deviceCode : String
  verificationUriComplete : String
deriving Repr, DecidableEq

/-- Error object thrown by a `createToken` poll attempt: its `.error` code is
`authorization_pending`, `slow_down`, or anything else. -/
inductive PollError where
  | authorization_pending
  | slow_down
  | other (msg : String)
deriving Repr, DecidableEq

/-- The distinct failures the library can throw, by constructor; `message`
below gives the JS error message. -/
inductive AuthError where
  | register (msg : String)
  | deviceAuth (msg : String)
  | timeout
  | parse (msg : String)
  | api (msg : String)
deriving Repr, DecidableEq

/-- The `Error.message` string of each thrown error, as built in the source. -/
def AuthError.message : AuthError → String
  | .register m => "Error registering SSO client: " ++ m
  | .deviceAuth m => "Error starting device authorization: " ++ m
  | .timeout => "Error creating token: Timeout"
  | .parse m => m
  | .api m => m

/-- One page of a paginated listing response: the items plus the optional
continuation token. -/
structure Page (α : Type) where
  items : List α
  nextToken : Option Nat
deriving Repr, DecidableEq

/-- A choice row `{ title, value }` handed to the `prompts` select chooser. -/
structure Choice (α : Type) where
  title : String
  value : α
deriving Repr, DecidableEq

/-- Environment of external collaborators: remote API responses and the
interactive chooser / text prompts.  API functions take the request fields
that vary between calls; the chooser functions return the `response.value`
the user picks. -/
structure Env where
  registerClient : Except String RegClient
  startDeviceAuthorization : Except String DeviceAuth
  createToken : Nat → Except PollError SSOToken
  nowAtCheck : Int
  nowAtSuccess : Int
  listAccounts : String → Option Nat → Except String (Page RawAccount)
  listAccountRoles : String → String → Option Nat → Except String (Page RawRole)
  getRoleCredentials : String → String → String → Except String RawRoleCredentials
  selectOrg : List (Choice SSOOrgUrl) → SSOOrgUrl
  selectAccount : List (Choice SSOAccount) → SSOAccount
  selectRole : List (Choice SSORole) → SSORole
  textUrl : String
  textName : String
  textRegion : String

/-! ### Sort comparators

The source sorts chooser rows with
`.sort((a, b) => a.title.localeCompare(b.title))`.  `localeCompare` performs
locale-aware collation (ICU root locale in Node), which on ASCII alphanumeric
strings compares case-insensitively at the primary level and breaks ties by
case, lowercase before uppercase.  `locCompare` models that restriction of
the collation.  `lexLe` is the spec-side order ("lexicographic,
case-sensitive"): plain code-unit comparison. -/

/-- Three-way comparison of weight lists, shorter list first on a tie. -/
def cmpNatList : List Nat → List Nat → Ordering
  | [], [] => .eq
  | [], _ :: _ => .lt
  | _ :: _, [] => .gt
  | a :: as, b :: bs =>
    if a < b then .lt else if b < a then .gt else cmpNatList as bs

/-- Primary collation weight of an ASCII character: its lowercased code. -/
def primaryWeight (c : Char) : Nat := c.toLower.toNat

/-- Tertiary (case) collation weight: lowercase before uppercase. -/
def caseWeight (c : Char) : Nat := if c.isUpper then 1 else 0

/-- Model of `a.localeCompare(b)` on ASCII alphanumeric strings: compare all
primary weights, then all case weights. -/
def locCompare (s t : String) : Ordering :=
  match cmpNatList (s.data.map primaryWeight) (t.data.map primaryWeight) with
  | .eq => cmpNatList (s.data.map caseWeight) (t.data.map caseWeight)
  | o => o

/-- `s` may precede `t` under the `localeCompare` comparator
(`s.localeCompare(t) <= 0`). -/
def locLe (s t : String) : Bool :=
  match locCompare s t with
  | .gt => false
  | _ => true

/-- Spec-side order, from the spec words "lexicographic, case-sensitive by
display name": code-unit comparison. -/
def lexLe (s t : String) : Bool :=
  match cmpNatList (s.data.map Char.toNat) (t.data.map Char.toNat) with
  | .gt => false
  | _ => true

/-- A list of chooser rows is sorted by the spec-side lexicographic,
case-sensitive order on titles. -/
def sortedByLex {α : Type} (l : List (Choice α)) : Prop :=
  List.Pairwise (fun x y => lexLe x.title y.title = true) l

/-- Insert `a` before the first element it compares less-or-equal to.
Together with `sortByJs` this is a stable comparison sort, the behaviour
ECMAScript guarantees for `Array.prototype.sort` with a consistent
comparator. -/
def insertLe {α : Type} (le : α → α → Bool) (a : α) : List α → List α
  | [] => [a]
  | b :: l => if le a b then a :: b :: l else b :: insertLe le a l

/-- Stable comparison sort modelling `Array.prototype.sort(cmp)`. -/
def sortByJs {α : Type} (le : α → α → Bool) : List α → List α
  | [] => []
  | x :: xs => insertLe le x (sortByJs le xs)

/-! ### Org URL resolver (`getOrgUrl`, src/index.js lines 134-205) -/

/-- The sentinel entry unshifted when the cached list has no
`startUrl === null` row. -/
def sentinelOrg : SSOOrgUrl :=
  { name := "Add a new startUrl", startUrl := none, region := none }

/-- Trace of one `getOrgUrl` call: its value, the cache afterwards, the
choice list given to the select chooser (`none` when no chooser ran), and
how many text prompts ran. -/
structure OrgUrlOut where
  val : Except AuthError SSOOrgUrl
  cache : Cache
  selectPrompt : Option (List (Choice SSOOrgUrl))
  textPrompts : Nat

/-- The select-chooser branch of `getOrgUrl`: present `matched`, and on the
sentinel row prompt for url/name/region, append the new org to `startUrls`,
persist and return it. -/
def orgUrlChoose (env : Env) (cache : Cache) (startUrls : List SSOOrgUrl)
    (matched : List SSOOrgUrl) : OrgUrlOut :=
  let choices := matched.map (fun s => ({ title := s.name, value := s } : Choice SSOOrgUrl))
  let sel := env.selectOrg choices
  if sel.startUrl = none then
    let newOrg : SSOOrgUrl :=
      { name := env.textName, startUrl := some env.textUrl, region := some env.textRegion }
    { val := .ok newOrg
      cache := cache.set "startUrls" (.urlList (startUrls ++ [newOrg]))
      selectPrompt := some choices
      textPrompts := 3 }
  else
    { val := .ok sel, cache := cache, selectPrompt := some choices, textPrompts := 0 }

/-- `getOrgUrl` after the cached list has been read and parsed into
`cached`: unshift the sentinel when no null-startUrl row exists, filter by
the matcher, return a unique non-sentinel match directly, otherwise run the
chooser on the filtered list. -/
def orgUrlResolve (env : Env) (cache : Cache) (matchOrg : SSOOrgUrl → Bool)
    (cached : List SSOOrgUrl) : OrgUrlOut :=
  let startUrls :=
    if (cached.find? (fun s => s.startUrl = none)).isSome then cached
    else sentinelOrg :: cached
  let matched := startUrls.filter matchOrg
  match matched with
  | [s] =>
    if s.startUrl ≠ none then
      { val := .ok s, cache := cache, selectPrompt := none, textPrompts := 0 }
    else orgUrlChoose env cache startUrls matched
  | _ => orgUrlChoose env cache startUrls matched

/-- `getOrgUrl`: read the `startUrls` cache entry; a parse failure is caught
(logged) and treated as an empty list, as is a value that is not an array of
org records; then resolve. -/
def getOrgUrl (env : Env) (cache : Cache) (matchOrg : SSOOrgUrl → Bool) : OrgUrlOut :=
  match cache "startUrls" with
  | some (.urlList l) => orgUrlResolve env cache matchOrg l
  | _ => orgUrlResolve env cache matchOrg []

/-! ### Token acquisition (`getToken`, src/index.js lines 212-285) -/

/-- The cache key `` `sso-${orgUrl.name}` ``. -/
def tokenCacheKey (orgUrl : SSOOrgUrl) : String := "sso-" ++ orgUrl.name

/-- Trace of one `getToken` call: its value, the cache afterwards, how many
remote calls it made, how many poll attempts ran, and the delays (ms)
performed before each attempt, in order. -/
structure TokenOut where
  val : Except AuthError SSOToken
  cache : Cache
  networkCalls : Nat
  attempts : Nat
  delays : List Nat

/-- The `do { await delay(1000); try createToken ... } while (maxIterations > 0)`
poll loop, entered with `maxIterations = 120`.  Returns the token of the
first successful attempt (if any within the budget), the number of attempts
made, and the delay performed before each attempt.  `i` is the index of the
next attempt. -/
def pollAux (createToken : Nat → Except PollError SSOToken) :
    Nat → Nat → Option SSOToken × Nat × List Nat
  | 0, _ => (none, 0, [])
  | fuel + 1, i =>
    match createToken i with
    | .ok tok => (some tok, 1, [1000])
    | .error _ =>
      let r := pollAux createToken fuel (i + 1)
      (r.1, r.2.1 + 1, 1000 :: r.2.2)

/-- The network path of `getToken`: register the client, start device
authorization (each failure wrapped and fatal), display the verification
URI, then poll up to 120 times; a success is persisted under the cache key
with `expireTime = expiresIn * 1000 + Date.now()` and returned; an exhausted
budget throws the timeout error. -/
def getTokenNetwork (env : Env) (cache : Cache) (orgUrl : SSOOrgUrl) : TokenOut :=
  match env.registerClient with
  | .error m =>
    { val := .error (.register m), cache := cache, networkCalls := 1,
      attempts := 0, delays := [] }
  | .ok _ =>
    match env.startDeviceAuthorization with
    | .error m =>
      { val := .error (.deviceAuth m), cache := cache, networkCalls := 2,
        attempts := 0, delays := [] }
    | .ok _ =>
      let r := pollAux env.createToken 120 0
      match r.1 with
      | some tok =>
        { val := .ok tok
          cache := cache.set (tokenCacheKey orgUrl)
            (.tokenEntry { token := tok,
                           expireTime := (tok.expiresIn : Int) * 1000 + env.nowAtSuccess })
          networkCalls := 2 + r.2.1
          attempts := r.2.1
          delays := r.2.2 }
      | none =>
        { val := .error .timeout, cache := cache, networkCalls := 2 + r.2.1,
          attempts := r.2.1, delays := r.2.2 }

/-- `getToken`: read the cache entry for `` `sso-${orgUrl.name}` ``.  A
parseable token entry whose `expireTime` is strictly in the future is
returned with no network call.  A corrupt entry makes the unguarded
`JSON.parse` throw, which propagates to the caller.  Any other value (an
expired entry, a missing entry, or parseable JSON without a future
`expireTime`) falls through to the network path. -/
def getToken (env : Env) (cache : Cache) (orgUrl : SSOOrgUrl) : TokenOut :=
  match cache (tokenCacheKey orgUrl) with
  | some (.tokenEntry e) =>
    if env.nowAtCheck < e.expireTime then
      { val := .ok e.token, cache := cache, networkCalls := 0,
        attempts := 0, delays := [] }
    else getTokenNetwork env cache orgUrl
  | some (.corrupt m) =>
    { val := .error (.parse m), cache := cache, networkCalls := 0,
      attempts := 0, delays := [] }
  | _ => getTokenNetwork env cache orgUrl

/-! ### Paginated listings (`getAccount` lines 293-331, `getRole` lines
340-380, `getRoleCredentials` lines 388-401) -/

/-- The `do { result = await fetch(params); push items; params.nextToken =
result.nextToken } while (params.nextToken)` accumulation loop shared by
`getAccount` and `getRole`.  A rejected fetch propagates.  `fuel` bounds the
recursion; every theorem supplies fuel at least the page count. -/
def collectLoop {α : Type} (fetch : Option Nat → Except String (Page α)) :
    Nat → Option Nat → List α → Except String (List α)
  | 0, _, acc => .ok acc
  | fuel + 1, tok, acc =>
    match fetch tok with
    | .error m => .error m
    | .ok page =>
      match page.nextToken with
      | none => .ok (acc ++ page.items)
      | some t => collectLoop fetch fuel (some t) (acc ++ page.items)

/-- A paginated collaborator serving the pages of `pages` in order, linked
by positional continuation tokens, the last page carrying no token. -/
def pagesOf {α : Type} (pages : List (List α)) : Option Nat → Except String (Page α) :=
  fun tok =>
    let i := tok.getD 0
    match pages[i]? with
    | some items =>
      .ok { items := items, nextToken := if i + 1 < pages.length then some (i + 1) else none }
    | none => .ok { items := [], nextToken := none }

/-- Trace of one `getAccount` call: its value and the choice list given to
the select chooser (`none` when no chooser ran). -/
structure AccountOut where
  val : Except AuthError SSOAccount
  selectPrompt : Option (List (Choice SSOAccount))

/-- The filter/choose tail of `getAccount` on the accumulated full account
list: a unique match returns directly; zero matches fall back to the whole
list; the chooser rows are sorted with the `localeCompare` comparator. -/
def accountResolve (env : Env) (accounts : List SSOAccount)
    (matchAcc : SSOAccount → Bool) : AccountOut :=
  let matched := accounts.filter matchAcc
  match matched with
  | [a] => { val := .ok { accountId := a.accountId, name := a.name }, selectPrompt := none }
  | _ =>
    let pool := if matched.isEmpty then accounts else matched
    let choices :=
      sortByJs (fun x y => locLe x.title y.title)
        (pool.map (fun a => ({ title := a.name, value := a } : Choice SSOAccount)))
    let sel := env.selectAccount choices
    { val := .ok { accountId := sel.accountId, name := sel.name },
      selectPrompt := some choices }

/-- `getAccount`: page through `sso.listAccounts`, mapping each page's rows
to `{accountId, name}` records, then filter/choose. -/
def getAccount (env : Env) (fuel : Nat) (token : SSOToken)
    (matchAcc : SSOAccount → Bool) : AccountOut :=
  let fetch := fun tok =>
    (env.listAccounts token.accessToken tok).map
      (fun p => { items := p.items.map
                    (fun r => ({ accountId := r.accountId, name := r.accountName } : SSOAccount)),
                  nextToken := p.nextToken })
  match collectLoop fetch fuel none [] with
  | .error m => { val := .error (.api m), selectPrompt := none }
  | .ok accounts => accountResolve env accounts matchAcc

/-- Trace of one `getRole` call. -/
structure RoleOut where
  val : Except AuthError SSORole
  selectPrompt : Option (List (Choice SSORole))

/-- The filter/choose tail of `getRole`, identical in shape to
`accountResolve`. -/
def roleResolve (env : Env) (roles : List SSORole)
    (matchRole : SSORole → Bool) : RoleOut :=
  let matched := roles.filter matchRole
  match matched with
  | [r] => { val := .ok { accountId := r.accountId, name := r.name }, selectPrompt := none }
  | _ =>
    let pool := if matched.isEmpty then roles else matched
    let choices :=
      sortByJs (fun x y => locLe x.title y.title)
        (pool.map (fun r => ({ title := r.name, value := r } : Choice SSORole)))
    let sel := env.selectRole choices
    { val := .ok { accountId := sel.accountId, name := sel.name },
      selectPrompt := some choices }

/-- `getRole`: page through `sso.listAccountRoles` for one account, mapping
each page's rows to `{accountId, name}` records, then filter/choose. -/
def getRole (env : Env) (fuel : Nat) (token : SSOToken) (accountId : String)
    (matchRole : SSORole → Bool) : RoleOut :=
  let fetch := fun tok =>
    (env.listAccountRoles token.accessToken accountId tok).map
      (fun p => { items := p.items.map
                    (fun r => ({ accountId := accountId, name := r.roleName } : SSORole)),
                  nextToken := p.nextToken })
  match collectLoop fetch fuel none [] with
  | .error m => { val := .error (.api m), selectPrompt := none }
  | .ok roles => roleResolve env roles matchRole

/-- `getRoleCredentials`: one remote call; the result's `expireTime` is
`new Date(creds.roleCredentials.expiration)`.  Any failure propagates. -/
def getRoleCredentials (env : Env) (token : SSOToken) (ssoRole : SSORole) :
    Except AuthError SSOCredentials :=
  match env.getRoleCredentials token.accessToken ssoRole.accountId ssoRole.name with
  | .error m => .error (.api m)
  | .ok c =>
    .ok { accessKeyId := c.accessKeyId, secretAccessKey := c.secretAccessKey,
          sessionToken := c.sessionToken, expireTime := c.expiration }

/-! ### Top-level sequencer (`authenticate`, src/index.js lines 118-126) -/

/-- Number of interactive prompts an `OrgUrlOut` records. -/
def OrgUrlOut.promptCount (o : OrgUrlOut) : Nat :=
  (if o.selectPrompt.isSome then 1 else 0) + o.textPrompts

/-- Number of interactive prompts an `AccountOut` records. -/
def AccountOut.promptCount (o : AccountOut) : Nat :=
  if o.selectPrompt.isSome then 1 else 0

/-- Number of interactive prompts a `RoleOut` records. -/
def RoleOut.promptCount (o : RoleOut) : Nat :=
  if o.selectPrompt.isSome then 1 else 0

/-- Trace of one `authenticate` call: its value, the cache afterwards, and
the total number of interactive prompts across all stages. -/
structure AuthOut where
  val : Except AuthError SSOCredentials
  cache : Cache
  prompts : Nat

/-- `authenticate`: the straight five-stage composition, threading each
stage's result into the next; a stage's failure (a thrown, un-caught
rejection) aborts the remaining stages. -/
def authenticate (env : Env) (fuel : Nat) (cache : Cache)
    (matchOrg : SSOOrgUrl → Bool) (matchAcc : SSOAccount → Bool)
    (matchRole : SSORole → Bool) : AuthOut :=
  let r1 := getOrgUrl env cache matchOrg
  match r1.val with
  | .error e => { val := .error e, cache := r1.cache, prompts := r1.promptCount }
  | .ok startUrl =>
    let r2 := getToken env r1.cache startUrl
    match r2.val with
    | .error e => { val := .error e, cache := r2.cache, prompts := r1.promptCount }
    | .ok token =>
      let r3 := getAccount env fuel token matchAcc
      match r3.val with
      | .error e =>
        { val := .error e, cache := r2.cache, prompts := r1.promptCount + r3.promptCount }
      | .ok account =>
        let r4 := getRole env fuel token account.accountId matchRole
        match r4.val with
        | .error e =>
          { val := .error e, cache := r2.cache,
            prompts := r1.promptCount + r3.promptCount + r4.promptCount }
        | .ok role =>
          match getRoleCredentials env token role with
          | .error e =>
            { val := .error e, cache := r2.cache,
              prompts := r1.promptCount + r3.promptCount + r4.promptCount }
          | .ok credentials =>
            { val := .ok credentials, cache := r2.cache,
              prompts := r1.promptCount + r3.promptCount + r4.promptCount }

/-! ### Concrete sample data -/

/-- A sample token. -/
def tokA : SSOToken := { accessToken := "token-a", expiresIn := 3600 }

/-- A sample organization entry. -/
def prodOrg : SSOOrgUrl :=
  { name := "Prod", startUrl := some "https://prod.example", region := some "eu-west-1" }

/-- The empty cache. -/
def emptyCache : Cache := fun _ => none

/-- A cache holding one start-URL list entry. -/
def cacheWithUrls : Cache :=
  fun k => if k = "startUrls" then some (.urlList [prodOrg]) else none

/-- A cache holding a token for `prodOrg` that expires at time 1000. -/
def cacheValidTok : Cache :=
  fun k => if k = "sso-Prod" then some (.tokenEntry { token := tokA, expireTime := 1000 }) else none

/-- A cache holding a token for `prodOrg` that expired at time 50. -/
def cacheExpiredTok : Cache :=
  fun k => if k = "sso-Prod" then some (.tokenEntry { token := tokA, expireTime := 50 }) else none

/-- A cache whose token entry for `prodOrg` is corrupt (unparseable). -/
def cacheCorruptTok : Cache :=
  fun k => if k = "sso-Prod" then some (.corrupt "garbage") else none

/-- A cache with a corrupt `startUrls` entry. -/
def cacheCorruptUrls : Cache :=
  fun k => if k = "startUrls" then some (.corrupt "garbage") else none

/-- Base sample environment: registration and device authorization succeed,
every poll attempt reports `authorization_pending`, the current time is 100
at the cache check and 200 at poll success, listings are empty, and every
chooser picks the first row. -/
def envA : Env where
  registerClient := .ok { clientId := "cid", clientSecret := "csec" }
  startDeviceAuthorization := .ok { deviceCode := "dcode", verificationUriComplete := "https://verify" }
  createToken := fun _ => .error .authorization_pending
  nowAtCheck := 100
  nowAtSuccess := 200
  listAccounts := fun _ _ => .ok { items := [], nextToken := none }
  listAccountRoles := fun _ _ _ => .ok { items := [], nextToken := none }
  getRoleCredentials := fun _ _ _ =>
    .ok { accessKeyId := "AK", secretAccessKey := "SK", sessionToken := "ST", expiration := 777 }
  selectOrg := fun l => ((l.head?).map (fun c => c.value)).getD sentinelOrg
  selectAccount := fun l => ((l.head?).map (fun c => c.value)).getD { accountId := "", name := "" }
  selectRole := fun l => ((l.head?).map (fun c => c.value)).getD { accountId := "", name := "" }
  textUrl := "https://new.example"
  textName := "NewOrg"
  textRegion := "eu-central-1"

/-- `envA`, but the third retry (attempt index 3) of the token exchange
succeeds and earlier attempts report a mix of poll errors. -/
def envOk3 : Env :=
  { envA with
    createToken := fun i =>
      if i = 3 then .ok tokA
      else if i = 0 then .error .slow_down
      else if i = 1 then .error (.other "boom")
      else .error .authorization_pending }

/-- `envA`, but the very first token-exchange attempt succeeds. -/
def envOk0 : Env :=
  { envA with createToken := fun i => if i = 0 then .ok tokA else .error .authorization_pending }

/-- `envA`, but every poll attempt fails with an unexpected error. -/
def envAllOther : Env :=
  { envA with createToken := fun _ => .error (.other "boom") }

/-- Two accounts whose names differ only in letter and case, used against
the sort-order claim. -/
def accLower : RawAccount := { accountId := "100", accountName := "a" }

/-- See `accLower`. -/
def accUpper : RawAccount := { accountId := "200", accountName := "B" }

/-- `envA` with two single-item account pages and two single-item role
pages, linked by continuation tokens. -/
def envPages : Env :=
  { envA with
    listAccounts := fun _ tok =>
      pagesOf [[{ accountId := "111", accountName := "One" }],
               [{ accountId := "222", accountName := "Two" }]] tok
    listAccountRoles := fun _ _ tok =>
      pagesOf [[{ roleName := "RoleOne" }], [{ roleName := "RoleTwo" }]] tok }

/-- `envA` with one account page containing `accLower` and `accUpper`. -/
def envTwoAccounts : Env :=
  { envA with listAccounts := fun _ tok => pagesOf [[accLower, accUpper]] tok }

/-- Happy-path environment for the end-to-end claim: single account page,
single role page, credentials succeed. -/
def envAuth : Env :=
  { envA with
    listAccounts := fun _ tok => pagesOf [[{ accountId := "111", accountName := "Acc1" }]] tok
    listAccountRoles := fun _ _ tok => pagesOf [[{ roleName := "Role1" }]] tok }

/-- Cache for the end-to-end claim: the org list plus a still-valid token
for `prodOrg`. -/
def cacheAuth : Cache :=
  fun k =>
    if k = "startUrls" then some (.urlList [prodOrg])
    else if k = "sso-Prod" then some (.tokenEntry { token := tokA, expireTime := 1000 })
    else none

/-! ### Poll-loop lemmas -/

/-- If every attempt within the budget fails, the poll loop makes exactly
`fuel` attempts, each preceded by a 1000 ms delay, and yields no token. -/
theorem pollAux_all_error (ct : Nat → Except PollError SSOToken) (fuel : Nat) :
    ∀ i : Nat, (∀ j, j < fuel → ∃ e, ct (i + j) = .error e) →
      pollAux ct fuel i = (none, fuel, List.replicate fuel 1000) := by
  induction fuel with
  | zero => intro i _; rfl
  | succ n ih =>
    intro i h
    obtain ⟨e, he⟩ := h 0 (Nat.succ_pos n)
    rw [Nat.add_zero] at he
    have ih2 := ih (i + 1) (fun j hj => by
      have hx := h (j + 1) (by omega)
      rwa [show i + (j + 1) = i + 1 + j by omega] at hx)
    simp [pollAux, he, ih2, List.replicate_succ]

/-- If attempt `i + k` is the first success inside the budget, the poll
loop returns that token after exactly `k + 1` attempts, each preceded by a
1000 ms delay. -/
theorem pollAux_first_ok (ct : Nat → Except PollError SSOToken) :
    ∀ (k fuel i : Nat) (tok : SSOToken), k < fuel → ct (i + k) = .ok tok →
      (∀ j, j < k → ∃ e, ct (i + j) = .error e) →
      pollAux ct fuel i = (some tok, k + 1, List.replicate (k + 1) 1000) := by
  intro k
  induction k with
  | zero =>
    intro fuel i tok hk hok _
    obtain ⟨f, rfl⟩ : ∃ f, fuel = f + 1 := ⟨fuel - 1, by omega⟩
    rw [Nat.add_zero] at hok
    simp [pollAux, hok]
  | succ n ih =>
    intro fuel i tok hk hok hbef
    obtain ⟨f, rfl⟩ : ∃ f, fuel = f + 1 := ⟨fuel - 1, by omega⟩
    obtain ⟨e, he⟩ := hbef 0 (Nat.succ_pos n)
    rw [Nat.add_zero] at he
    have step := ih f (i + 1) tok (by omega)
      (by rwa [show i + 1 + n = i + (n + 1) by omega])
      (fun j hj => by
        have hx := hbef (j + 1) (by omega)
        rwa [show i + (j + 1) = i + 1 + j by omega] at hx)
    simp [pollAux, he, step, List.replicate_succ]

/-! ### Pagination lemmas -/

/-- Mapping each page's items through `f` commutes with the positional
paginated collaborator. -/
theorem pagesOf_map {α β : Type} (pages : List (List α)) (f : α → β) (tok : Option Nat) :
    (pagesOf pages tok).map (fun p => Page.mk (p.items.map f) p.nextToken) =
      pagesOf (pages.map (List.map f)) tok := by
  unfold pagesOf
  cases h : pages[tok.getD 0]? with
  | none =>
    have h2 : (pages.map (List.map f))[tok.getD 0]? = none := by
      simp [List.getElem?_map, h]
    simp [h, h2, Except.map]
  | some items =>
    have h2 : (pages.map (List.map f))[tok.getD 0]? = some (items.map f) := by
      simp [List.getElem?_map, h]
    simp [h, h2, Except.map, List.length_map]

/-- Against the positional paginated collaborator, the accumulation loop
follows the continuation tokens to the end and returns the accumulator
followed by every item of every remaining page. -/
theorem collectLoop_pagesOf {α : Type} (pages : List (List α)) :
    ∀ (fuel : Nat) (tok : Option Nat) (acc : List α), 1 ≤ fuel →
      pages.length ≤ tok.getD 0 + fuel →
      collectLoop (pagesOf pages) fuel tok acc =
        .ok (acc ++ (pages.drop (tok.getD 0)).flatten) := by
  intro fuel
  induction fuel with
  | zero => intro tok acc h1 _; omega
  | succ n ih =>
    intro tok acc _ hlen
    cases h : pages[tok.getD 0]? with
    | none =>
      have hge : pages.length ≤ tok.getD 0 := by
        by_contra hlt
        rw [List.getElem?_eq_getElem (by omega)] at h
        exact Option.noConfusion h
      have hdrop : pages.drop (tok.getD 0) = [] := List.drop_eq_nil_of_le hge
      simp [collectLoop, pagesOf, h, hdrop]
    | some items =>
      have hi : tok.getD 0 < pages.length := by
        by_contra hge
        rw [List.getElem?_eq_none (by omega)] at h
        exact Option.noConfusion h
      have hitems : pages[tok.getD 0] = items := by
        rw [List.getElem?_eq_getElem hi] at h
        exact Option.some.inj h
      have hdrop : pages.drop (tok.getD 0) = items :: pages.drop (tok.getD 0 + 1) := by
        rw [List.drop_eq_getElem_cons hi, hitems]
      by_cases hnext : tok.getD 0 + 1 < pages.length
      · have step := ih (some (tok.getD 0 + 1)) (acc ++ items) (by omega) (by simp; omega)
        simp only [Option.getD_some] at step
        simp [collectLoop, pagesOf, h, hnext, step, hdrop, List.flatten_cons,
          List.append_assoc]
      · have hdrop2 : pages.drop (tok.getD 0 + 1) = [] := List.drop_eq_nil_of_le (by omega)
        simp [collectLoop, pagesOf, h, hnext, hdrop, hdrop2, List.flatten_cons]

/-! ### Sorting lemmas -/

/-- Inserting an element permutes consing it. -/
theorem insertLe_perm {α : Type} (le : α → α → Bool) (a : α) :
    ∀ l : List α, (insertLe le a l).Perm (a :: l) := by
  intro l
  induction l with
  | nil => exact List.Perm.refl _
  | cons b l ih =>
    unfold insertLe
    by_cases hab : le a b = true
    · rw [if_pos hab]
    · rw [if_neg hab]
      exact (ih.cons b).trans (List.Perm.swap a b l)

/-- The stable sort permutes its input. -/
theorem sortByJs_perm {α : Type} (le : α → α → Bool) :
    ∀ l : List α, (sortByJs le l).Perm l := by
  intro l
  induction l with
  | nil => exact List.Perm.refl _
  | cons x xs ih =>
    exact (insertLe_perm le x (sortByJs le xs)).trans (ih.cons x)

/-- Inserting into a sorted list keeps it sorted, for a total transitive
comparator. -/
theorem insertLe_pairwise {α : Type} (le : α → α → Bool)
    (htrans : ∀ a b c, le a b = true → le b c = true → le a c = true)
    (htotal : ∀ a b, (le a b || le b a) = true) (a : α) :
    ∀ l : List α, List.Pairwise (fun x y => le x y = true) l →
      List.Pairwise (fun x y => le x y = true) (insertLe le a l) := by
  intro l
  induction l with
  | nil => intro _; exact List.pairwise_singleton _ _
  | cons b l ih =>
    intro hp
    rcases List.pairwise_cons.mp hp with ⟨hb, hl⟩
    unfold insertLe
    by_cases hab : le a b = true
    · rw [if_pos hab]
      refine List.pairwise_cons.mpr ⟨?_, hp⟩
      intro c hc
      rcases List.mem_cons.mp hc with rfl | hcl
      · exact hab
      · exact htrans a b c hab (hb c hcl)
    · rw [if_neg hab]
      have hba : le b a = true := by
        rcases Bool.or_eq_true_iff.mp (htotal a b) with h | h
        · exact absurd h hab
        · exact h
      refine List.pairwise_cons.mpr ⟨?_, ih hl⟩
      intro c hc
      have hc2 : c = a ∨ c ∈ l := by
        have := (insertLe_perm le a l).mem_iff.mp hc
        simpa using this
      rcases hc2 with rfl | hcl
      · exact hba
      · exact hb c hcl

/-- The stable sort sorts, for a total transitive comparator. -/
theorem sortByJs_pairwise {α : Type} (le : α → α → Bool)
    (htrans : ∀ a b c, le a b = true → le b c = true → le a c = true)
    (htotal : ∀ a b, (le a b || le b a) = true) :
    ∀ l : List α, List.Pairwise (fun x y => le x y = true) (sortByJs le l) := by
  intro l
  induction l with
  | nil => exact List.Pairwise.nil
  | cons x xs ih => exact insertLe_pairwise le htrans htotal x _ ih

/-! ### Collation-order lemmas -/

/-- Weight-list comparison returns `eq` exactly on equal lists. -/
theorem cmpNatList_eq_iff : ∀ a b : List Nat, cmpNatList a b = .eq ↔ a = b := by
  intro a
  induction a with
  | nil => intro b; cases b <;> simp [cmpNatList]
  | cons x xs ih =>
    intro b
    cases b with
    | nil => simp [cmpNatList]
    | cons y ys =>
      simp only [cmpNatList]
      by_cases h1 : x < y
      · simp only [if_pos h1]
        constructor
        · intro h; exact Ordering.noConfusion h
        · intro h
          have : x = y := (List.cons.injEq _ _ _ _ ▸ h).1
          omega
      · by_cases h2 : y < x
        · simp only [if_neg h1, if_pos h2]
          constructor
          · intro h; exact Ordering.noConfusion h
          · intro h
            have : x = y := (List.cons.injEq _ _ _ _ ▸ h).1
            omega
        · have hxy : x = y := by omega
          simp [if_neg h1, if_neg h2, ih, hxy]

/-- Weight-list comparison is antisymmetric: `gt` one way is `lt` the other. -/
theorem cmpNatList_gt_iff : ∀ a b : List Nat, cmpNatList a b = .gt ↔ cmpNatList b a = .lt := by
  intro a
  induction a with
  | nil => intro b; cases b <;> simp [cmpNatList]
  | cons x xs ih =>
    intro b
    cases b with
    | nil => simp [cmpNatList]
    | cons y ys =>
      simp only [cmpNatList]
      by_cases h1 : x < y
      · have h2 : ¬ y < x := by omega
        simp only [if_pos h1, if_neg h2, if_pos h1]
        constructor <;> (intro h; exact Ordering.noConfusion h)
      · by_cases h2 : y < x
        · simp [if_neg h1, if_pos h2]
        · simp [if_neg h1, if_neg h2, ih]

/-- Weight-list comparison is transitive in `lt`. -/
theorem cmpNatList_lt_trans : ∀ a b c : List Nat,
    cmpNatList a b = .lt → cmpNatList b c = .lt → cmpNatList a c = .lt := by
  intro a
  induction a with
  | nil =>
    intro b c hab hbc
    cases b with
    | nil => exact hbc
    | cons y ys =>
      cases c with
      | nil => simp [cmpNatList] at hbc
      | cons z zs => simp [cmpNatList]
  | cons x xs ih =>
    intro b c hab hbc
    cases b with
    | nil => simp [cmpNatList] at hab
    | cons y ys =>
      cases c with
      | nil => simp [cmpNatList] at hbc
      | cons z zs =>
        simp only [cmpNatList] at hab hbc ⊢
        by_cases hxy : x < y
        · by_cases hyz : y < z
          · rw [if_pos (show x < z by omega)]
          · by_cases hzy : z < y
            · rw [if_neg hyz, if_pos hzy] at hbc
              exact Ordering.noConfusion hbc
            · have : y = z := by omega
              rw [if_pos (show x < z by omega)]
        · by_cases hyx : y < x
          · rw [if_neg hxy, if_pos hyx] at hab
            exact Ordering.noConfusion hab
          · have hxeq : x = y := by omega
            subst hxeq
            rw [if_neg (lt_irrefl x), if_neg (lt_irrefl x)] at hab
            by_cases hyz : x < z
            · rw [if_pos hyz]
            · by_cases hzy : z < x
              · rw [if_neg hyz, if_pos hzy] at hbc
                exact Ordering.noConfusion hbc
              · rw [if_neg hyz, if_neg hzy] at hbc ⊢
                exact ih ys zs hab hbc

/-- Weight-list comparison is transitive in `not gt`. -/
theorem cmpNatList_le_trans {a b c : List Nat}
    (hab : cmpNatList a b ≠ .gt) (hbc : cmpNatList b c ≠ .gt) :
    cmpNatList a c ≠ .gt := by
  cases h1 : cmpNatList a b with
  | gt => exact absurd h1 hab
  | eq =>
    have : a = b := (cmpNatList_eq_iff a b).mp h1
    subst this
    exact hbc
  | lt =>
    cases h2 : cmpNatList b c with
    | gt => exact absurd h2 hbc
    | eq =>
      have : b = c := (cmpNatList_eq_iff b c).mp h2
      subst this
      simp [h1]
    | lt =>
      have := cmpNatList_lt_trans a b c h1 h2
      simp [this]

/-- `locLe s t` holds exactly when the modelled `localeCompare` does not
order `s` after `t`. -/
theorem locLe_eq_true_iff (s t : String) : locLe s t = true ↔ locCompare s t ≠ .gt := by
  unfold locLe
  cases h : locCompare s t <;> simp [h]

/-- The modelled `localeCompare` order is transitive. -/
theorem locLe_trans (a b c : String) (hab : locLe a b = true) (hbc : locLe b c = true) :
    locLe a c = true := by
  rw [locLe_eq_true_iff] at hab hbc ⊢
  unfold locCompare at hab hbc ⊢
  cases h1 : cmpNatList (a.data.map primaryWeight) (b.data.map primaryWeight) with
  | gt => rw [h1] at hab; exact absurd rfl hab
  | eq =>
    have hpe : a.data.map primaryWeight = b.data.map primaryWeight :=
      (cmpNatList_eq_iff _ _).mp h1
    rw [h1] at hab
    cases h2 : cmpNatList (b.data.map primaryWeight) (c.data.map primaryWeight) with
    | gt => rw [h2] at hbc; exact absurd rfl hbc
    | eq =>
      have hpe2 : b.data.map primaryWeight = c.data.map primaryWeight :=
        (cmpNatList_eq_iff _ _).mp h2
      rw [h2] at hbc
      have hcc : cmpNatList (a.data.map primaryWeight) (c.data.map primaryWeight) = .eq := by
        rw [hpe, hpe2]
        exact (cmpNatList_eq_iff _ _).mpr rfl
      rw [hcc]
      exact cmpNatList_le_trans hab hbc
    | lt =>
      rw [hpe, h2]
      intro h; exact Ordering.noConfusion h
  | lt =>
    cases h2 : cmpNatList (b.data.map primaryWeight) (c.data.map primaryWeight) with
    | gt => rw [h2] at hbc; exact absurd rfl hbc
    | eq =>
      have hpe2 : b.data.map primaryWeight = c.data.map primaryWeight :=
        (cmpNatList_eq_iff _ _).mp h2
      rw [← hpe2, h1]
      intro h; exact Ordering.noConfusion h
    | lt =>
      rw [cmpNatList_lt_trans _ _ _ h1 h2]
      intro h; exact Ordering.noConfusion h

/-- The modelled `localeCompare` order is total. -/
theorem locLe_total (a b : String) : (locLe a b || locLe b a) = true := by
  by_cases h : locLe a b = true
  · simp [h]
  · have hgt : locCompare a b = .gt := by
      rw [locLe_eq_true_iff] at h
      by_contra h2
      exact h (by simpa using h2)
    have : locLe b a = true := by
      rw [locLe_eq_true_iff]
      unfold locCompare at hgt ⊢
      cases h1 : cmpNatList (a.data.map primaryWeight) (b.data.map primaryWeight) with
      | lt => rw [h1] at hgt; exact Ordering.noConfusion hgt
      | gt =>
        have := (cmpNatList_gt_iff _ _).mp h1
        rw [this]
        intro hx; exact Ordering.noConfusion hx
      | eq =>
        rw [h1] at hgt
        have hpe : a.data.map primaryWeight = b.data.map primaryWeight :=
          (cmpNatList_eq_iff _ _).mp h1
        rw [← hpe, (cmpNatList_eq_iff _ _).mpr rfl]
        have := (cmpNatList_gt_iff _ _).mp hgt
        rw [this]
        intro hx; exact Ordering.noConfusion hx
    simp [this]

/-! ### Shared small lemmas -/

/-- Writing one cache key leaves every other key unchanged. -/
theorem cache_set_ne (c : Cache) (k k2 : String) (v : CacheVal) (h : k2 ≠ k) :
    (c.set k v) k2 = c k2 := by
  simp [Cache.set, h]

/-- The network path always performs at least the client registration call. -/
theorem getTokenNetwork_networkCalls_pos (env : Env) (cache : Cache) (orgUrl : SSOOrgUrl) :
    1 ≤ (getTokenNetwork env cache orgUrl).networkCalls := by
  unfold getTokenNetwork
  cases env.registerClient with
  | error m => simp
  | ok rc =>
    cases env.startDeviceAuthorization with
    | error m => simp
    | ok da =>
      cases h : (pollAux env.createToken 120 0).1 with
      | some tok => simp [h]; omega
      | none => simp [h]; omega

/-- The network path touches no cache key other than the token cache key. -/
theorem getTokenNetwork_cache_frame (env : Env) (cache : Cache) (orgUrl : SSOOrgUrl)
    (k : String) (hk : k ≠ tokenCacheKey orgUrl) :
    (getTokenNetwork env cache orgUrl).cache k = cache k := by
  unfold getTokenNetwork
  cases env.registerClient with
  | error m => simp
  | ok rc =>
    cases env.startDeviceAuthorization with
    | error m => simp
    | ok da =>
      cases h : (pollAux env.createToken 120 0).1 with
      | some tok => simp [h, cache_set_ne _ _ _ _ hk]
      | none => simp [h]

/-- C1: with a cached token under `"sso-" + orgName` whose `expireTime` is
strictly in the future, `getToken` returns that cached token with zero
network calls and an unchanged cache; with an expired or missing cached
token it runs the full register / device-authorization / polling sequence
(at least one network call). -/
theorem c1_token_cache_short_circuit (env : Env) (cache : Cache) (orgUrl : SSOOrgUrl) :
    (∀ e, cache (tokenCacheKey orgUrl) = some (.tokenEntry e) →
      env.nowAtCheck < e.expireTime →
      getToken env cache orgUrl =
        { val := .ok e.token, cache := cache, networkCalls := 0, attempts := 0, delays := [] }) ∧
    ((cache (tokenCacheKey orgUrl) = none ∨
        ∃ e, cache (tokenCacheKey orgUrl) = some (.tokenEntry e) ∧ e.expireTime ≤ env.nowAtCheck) →
      getToken env cache orgUrl = getTokenNetwork env cache orgUrl ∧
        1 ≤ (getTokenNetwork env cache orgUrl).networkCalls) := by
  constructor
  · intro e he hfresh
    simp [getToken, he, hfresh]
  · intro h
    refine ⟨?_, getTokenNetwork_networkCalls_pos env cache orgUrl⟩
    rcases h with h | ⟨e, he, hexp⟩
    · simp [getToken, h]
    · simp [getToken, he, not_lt.mpr hexp]

/-- C1 witness: a fresh cached token is returned as-is; an expired one
falls through to the network sequence. -/
theorem c1_token_cache_short_circuit_witness :
    getToken envA cacheValidTok prodOrg =
      { val := .ok tokA, cache := cacheValidTok, networkCalls := 0, attempts := 0, delays := [] } ∧
    getToken envA cacheExpiredTok prodOrg = getTokenNetwork envA cacheExpiredTok prodOrg := by
  constructor
  · exact (c1_token_cache_short_circuit envA cacheValidTok prodOrg).1
      { token := tokA, expireTime := 1000 } (by decide) (by decide)
  · exact ((c1_token_cache_short_circuit envA cacheExpiredTok prodOrg).2
      (Or.inr ⟨{ token := tokA, expireTime := 50 }, by decide, by decide⟩)).1

/-- C2: when every poll attempt reports `authorization_pending`, `getToken`
makes exactly 120 attempts, each preceded by a 1000 ms delay, and then
throws the timeout error, whose message differs from both fatal-stage error
messages. -/
theorem c2_poll_timeout_after_120 (env : Env) (cache : Cache) (orgUrl : SSOOrgUrl)
    (hmiss : cache (tokenCacheKey orgUrl) = none)
    (hreg : ∃ rc, env.registerClient = .ok rc)
    (hda : ∃ da, env.startDeviceAuthorization = .ok da)
    (hpend : ∀ i, env.createToken i = .error .authorization_pending) :
    (getToken env cache orgUrl).val = .error .timeout ∧
    (getToken env cache orgUrl).attempts = 120 ∧
    (getToken env cache orgUrl).delays = List.replicate 120 1000 ∧
    (∀ m, AuthError.timeout.message ≠ (AuthError.register m).message) ∧
    (∀ m, AuthError.timeout.message ≠ (AuthError.deviceAuth m).message) := by
  obtain ⟨rc, hrc⟩ := hreg
  obtain ⟨da, hda'⟩ := hda
  have hpoll := pollAux_all_error env.createToken 120 0
    (fun j _ => ⟨.authorization_pending, by simpa using hpend j⟩)
  refine ⟨?_, ?_, ?_, ?_, ?_⟩
  · simp [getToken, hmiss, getTokenNetwork, hrc, hda', hpoll]
  · simp [getToken, hmiss, getTokenNetwork, hrc, hda', hpoll]
  · simp [getToken, hmiss, getTokenNetwork, hrc, hda', hpoll]
  · intro m h
    have hl := congrArg String.length h
    simp only [AuthError.message, String.length_append] at hl
    have h1 : ("Error creating token: Timeout" : String).length = 29 := by decide
    have h2 : ("Error registering SSO client: " : String).length = 30 := by decide
    omega
  · intro m h
    have hl := congrArg String.length h
    simp only [AuthError.message, String.length_append] at hl
    have h1 : ("Error creating token: Timeout" : String).length = 29 := by decide
    have h2 : ("Error starting device authorization: " : String).length = 37 := by decide
    omega

/-- C2 witness: the all-pending environment times out after 120 one-second
delays. -/
theorem c2_poll_timeout_after_120_witness :
    (getToken envA emptyCache prodOrg).val = .error .timeout ∧
    (getToken envA emptyCache prodOrg).attempts = 120 ∧
    (getToken envA emptyCache prodOrg).delays = List.replicate 120 1000 := by
  have h := c2_poll_timeout_after_120 envA emptyCache prodOrg rfl
    ⟨_, rfl⟩ ⟨_, rfl⟩ (fun _ => rfl)
  exact ⟨h.1, h.2.1, h.2.2.1⟩

/-- C3: no poll error aborts the loop early: any all-failing attempt
sequence, whatever the error kinds, consumes the whole 120-attempt budget
and ends in the timeout error, while a first success at attempt `k`
terminates the loop there with `k + 1` attempts made. -/
theorem c3_poll_errors_never_abort (env : Env) (cache : Cache) (orgUrl : SSOOrgUrl)
    (hmiss : cache (tokenCacheKey orgUrl) = none)
    (hreg : ∃ rc, env.registerClient = .ok rc)
    (hda : ∃ da, env.startDeviceAuthorization = .ok da) :
    ((∀ i, i < 120 → ∃ e, env.createToken i = .error e) →
      (getToken env cache orgUrl).attempts = 120 ∧
      (getToken env cache orgUrl).val = .error .timeout) ∧
    (∀ k tok, k < 120 → env.createToken k = .ok tok →
      (∀ j, j < k → ∃ e, env.createToken j = .error e) →
      (getToken env cache orgUrl).attempts = k + 1 ∧
      (getToken env cache orgUrl).val = .ok tok) := by
  obtain ⟨rc, hrc⟩ := hreg
  obtain ⟨da, hda'⟩ := hda
  constructor
  · intro herr
    have hpoll := pollAux_all_error env.createToken 120 0
      (fun j hj => by simpa using herr j hj)
    constructor <;> simp [getToken, hmiss, getTokenNetwork, hrc, hda', hpoll]
  · intro k tok hk hok hbef
    have hpoll := pollAux_first_ok env.createToken k 120 0 tok hk
      (by simpa using hok) (fun j hj => by simpa using hbef j hj)
    constructor <;> simp [getToken, hmiss, getTokenNetwork, hrc, hda', hpoll]

/-- C3 witness: attempts failing with `slow_down`, an unexpected error and
`authorization_pending` only consume budget (success at attempt 3 gives 4
attempts); an all-unexpected-error run still uses all 120 attempts. -/
theorem c3_poll_errors_never_abort_witness :
    ((getToken envOk3 emptyCache prodOrg).attempts = 4 ∧
      (getToken envOk3 emptyCache prodOrg).val = .ok tokA) ∧
    ((getToken envAllOther emptyCache prodOrg).attempts = 120 ∧
      (getToken envAllOther emptyCache prodOrg).val = .error .timeout) := by
  constructor
  · exact (c3_poll_errors_never_abort envOk3 emptyCache prodOrg rfl ⟨_, rfl⟩ ⟨_, rfl⟩).2
      3 tokA (by decide) rfl
      (fun j hj => by
        interval_cases j
        · exact ⟨.slow_down, rfl⟩
        · exact ⟨.other "boom", rfl⟩
        · exact ⟨.authorization_pending, rfl⟩)
  · exact (c3_poll_errors_never_abort envAllOther emptyCache prodOrg rfl ⟨_, rfl⟩ ⟨_, rfl⟩).1
      (fun i _ => ⟨.other "boom", rfl⟩)

/-- C7: a successful poll attempt persists the token under
`"sso-" + orgName` with `expireTime = expiresIn * 1000 + now` and returns
the token. -/
theorem c7_success_persists_token (env : Env) (cache : Cache) (orgUrl : SSOOrgUrl)
    (k : Nat) (tok : SSOToken)
    (hmiss : cache (tokenCacheKey orgUrl) = none)
    (hreg : ∃ rc, env.registerClient = .ok rc)
    (hda : ∃ da, env.startDeviceAuthorization = .ok da)
    (hk : k < 120) (hok : env.createToken k = .ok tok)
    (hbef : ∀ j, j < k → ∃ e, env.createToken j = .error e) :
    (getToken env cache orgUrl).val = .ok tok ∧
    (getToken env cache orgUrl).cache (tokenCacheKey orgUrl) =
      some (.tokenEntry { token := tok,
                          expireTime := (tok.expiresIn : Int) * 1000 + env.nowAtSuccess }) := by
  obtain ⟨rc, hrc⟩ := hreg
  obtain ⟨da, hda'⟩ := hda
  have hpoll := pollAux_first_ok env.createToken k 120 0 tok hk
    (by simpa using hok) (fun j hj => by simpa using hbef j hj)
  constructor
  · simp [getToken, hmiss, getTokenNetwork, hrc, hda', hpoll]
  · simp [getToken, hmiss, getTokenNetwork, hrc, hda', hpoll, Cache.set]

/-- C7 witness: success at attempt 3 persists `expireTime = 3600 * 1000 +
200 = 3600200` and returns the token. -/
theorem c7_success_persists_token_witness :
    (getToken envOk3 emptyCache prodOrg).val = .ok tokA ∧
    (getToken envOk3 emptyCache prodOrg).cache "sso-Prod" =
      some (.tokenEntry { token := tokA, expireTime := 3600200 }) := by
  have h := c7_success_persists_token envOk3 emptyCache prodOrg 3 tokA rfl
    ⟨_, rfl⟩ ⟨_, rfl⟩ (by decide) rfl
    (fun j hj => by
      interval_cases j
      · exact ⟨.slow_down, rfl⟩
      · exact ⟨.other "boom", rfl⟩
      · exact ⟨.authorization_pending, rfl⟩)
  exact ⟨h.1, h.2⟩

/-- C10: each operation writes at most its own cache key: `getToken` leaves
every key other than `"sso-" + orgName` unchanged, and `getOrgUrl` leaves
every key other than `"startUrls"` unchanged. -/
theorem c10_cache_frame (env : Env) (cache : Cache) (orgUrl : SSOOrgUrl)
    (m : SSOOrgUrl → Bool) (k : String) :
    (k ≠ tokenCacheKey orgUrl → (getToken env cache orgUrl).cache k = cache k) ∧
    (k ≠ "startUrls" → (getOrgUrl env cache m).cache k = cache k) := by
  constructor
  · intro hk
    unfold getToken
    cases h : cache (tokenCacheKey orgUrl) with
    | none => exact getTokenNetwork_cache_frame env cache orgUrl k hk
    | some v =>
      cases v with
      | tokenEntry e =>
        by_cases hfresh : env.nowAtCheck < e.expireTime
        · simp [hfresh]
        · simp only [if_neg hfresh]
          exact getTokenNetwork_cache_frame env cache orgUrl k hk
      | urlList l => exact getTokenNetwork_cache_frame env cache orgUrl k hk
      | corrupt r => simp
  · intro hk
    have hchoose : ∀ su ms, (orgUrlChoose env cache su ms).cache k = cache k := by
      intro su ms
      unfold orgUrlChoose
      by_cases hsel : (env.selectOrg (ms.map
          (fun s => ({ title := s.name, value := s } : Choice SSOOrgUrl)))).startUrl = none
      · simp [hsel, cache_set_ne _ _ _ _ hk]
      · simp [hsel]
    have hres : ∀ cached, (orgUrlResolve env cache m cached).cache k = cache k := by
      intro cached
      simp only [orgUrlResolve]
      split
      · split
        · rfl
        · exact hchoose _ _
      · exact hchoose _ _
    unfold getOrgUrl
    cases h : cache "startUrls" with
    | none => exact hres []
    | some v => cases v <;> [exact hres _; exact hres _; exact hres _]

/-- C10 witness: a `getToken` run that writes its token key leaves an
unrelated key intact, and a `getOrgUrl` run that persists a new org list
leaves the token key intact. -/
theorem c10_cache_frame_witness :
    (getToken envOk3 cacheWithUrls prodOrg).cache "startUrls" =
      cacheWithUrls "startUrls" ∧
    (getOrgUrl envA cacheWithUrls (fun s => s.name == "Dev")).cache "sso-Prod" =
      cacheWithUrls "sso-Prod" := by
  constructor
  · exact (c10_cache_frame envOk3 cacheWithUrls prodOrg (fun s => s.name == "Dev")
      "startUrls").1 (by decide)
  · exact (c10_cache_frame envA cacheWithUrls prodOrg (fun s => s.name == "Dev")
      "sso-Prod").2 (by decide)

/-- C4 counterexample: with a corrupt token cache entry `getToken` does not
proceed as if the entry were absent — it propagates a parse error, whereas
with the entry absent the same environment yields a token. -/
theorem c4_corrupt_token_counterexample :
    (getToken envOk0 cacheCorruptTok prodOrg).val = .error (.parse "garbage") ∧
    (getToken envOk0 emptyCache prodOrg).val = .ok tokA ∧
    (Except.error (AuthError.parse "garbage") ≠
      (Except.ok tokA : Except AuthError SSOToken)) := by
  refine ⟨rfl, rfl, ?_⟩
  intro h
  exact Except.noConfusion h

/-- C4 (amended): a corrupt cached `startUrls` value is caught by
`getOrgUrl`, which resolves from the empty list exactly as with an absent
entry; `getToken` does not guard its parse, so a corrupt token cache entry
propagates a parse error to the caller, with zero network calls, no
fallback to the device flow, and an unchanged cache. -/
theorem c4_corrupt_cache_behavior (env : Env) (cache : Cache)
    (m : SSOOrgUrl → Bool) (orgUrl : SSOOrgUrl) :
    (∀ r, cache "startUrls" = some (.corrupt r) →
      getOrgUrl env cache m = orgUrlResolve env cache m []) ∧
    (cache "startUrls" = none →
      getOrgUrl env cache m = orgUrlResolve env cache m []) ∧
    (∀ r, cache (tokenCacheKey orgUrl) = some (.corrupt r) →
      (getToken env cache orgUrl).val = .error (.parse r) ∧
      (getToken env cache orgUrl).networkCalls = 0 ∧
      (getToken env cache orgUrl).cache = cache) := by
  refine ⟨?_, ?_, ?_⟩
  · intro r h
    simp [getOrgUrl, h]
  · intro h
    simp [getOrgUrl, h]
  · intro r h
    simp [getToken, h]

/-- C4 witness: the corrupt `startUrls` entry resolves like an empty cache;
the corrupt token entry surfaces its parse error. -/
theorem c4_corrupt_cache_behavior_witness :
    getOrgUrl envA cacheCorruptUrls (fun s => s.name == "Prod") =
      orgUrlResolve envA cacheCorruptUrls (fun s => s.name == "Prod") [] ∧
    (getToken envA cacheCorruptTok prodOrg).val = .error (.parse "garbage") := by
  constructor
  · exact (c4_corrupt_cache_behavior envA cacheCorruptUrls
      (fun s => s.name == "Prod") prodOrg).1 "garbage" (by decide)
  · exact ((c4_corrupt_cache_behavior envA cacheCorruptTok
      (fun s => s.name == "Prod") prodOrg).2.2 "garbage" (by decide)).1

/-- C6: the account and role listings follow the continuation token to the
end and hand the resolver the concatenation of every page — the filter and
chooser run on the full accumulated list, whatever the matcher. -/
theorem c6_pagination_accumulates_all (env : Env) (fuel : Nat) (token : SSOToken)
    (accountId : String) (accPages : List (List RawAccount))
    (rolePages : List (List RawRole))
    (matchAcc : SSOAccount → Bool) (matchRole : SSORole → Bool)
    (hacc : ∀ tok, env.listAccounts token.accessToken tok = pagesOf accPages tok)
    (hrole : ∀ tok, env.listAccountRoles token.accessToken accountId tok = pagesOf rolePages tok)
    (hfuel : 1 ≤ fuel) (hfa : accPages.length ≤ fuel) (hfr : rolePages.length ≤ fuel) :
    getAccount env fuel token matchAcc =
      accountResolve env
        (accPages.flatten.map (fun r => { accountId := r.accountId, name := r.accountName }))
        matchAcc ∧
    getRole env fuel token accountId matchRole =
      roleResolve env
        (rolePages.flatten.map (fun r => { accountId := accountId, name := r.roleName }))
        matchRole := by
  constructor
  · have hfetch : (fun tok => (env.listAccounts token.accessToken tok).map
        (fun p => Page.mk (p.items.map
          (fun r => ({ accountId := r.accountId, name := r.accountName } : SSOAccount)))
          p.nextToken)) =
        pagesOf (accPages.map (List.map
          (fun r => ({ accountId := r.accountId, name := r.accountName } : SSOAccount)))) := by
      funext tok
      rw [hacc tok]
      exact pagesOf_map accPages _ tok
    have hcollect := collectLoop_pagesOf
      (accPages.map (List.map
        (fun r => ({ accountId := r.accountId, name := r.accountName } : SSOAccount))))
      fuel none [] hfuel (by simpa using hfa)
    unfold getAccount
    rw [hfetch]
    simp only [hcollect]
    simp [List.map_flatten]
  · have hfetch : (fun tok => (env.listAccountRoles token.accessToken accountId tok).map
        (fun p => Page.mk (p.items.map
          (fun r => ({ accountId := accountId, name := r.roleName } : SSORole)))
          p.nextToken)) =
        pagesOf (rolePages.map (List.map
          (fun r => ({ accountId := accountId, name := r.roleName } : SSORole)))) := by
      funext tok
      rw [hrole tok]
      exact pagesOf_map rolePages _ tok
    have hcollect := collectLoop_pagesOf
      (rolePages.map (List.map
        (fun r => ({ accountId := accountId, name := r.roleName } : SSORole))))
      fuel none [] hfuel (by simpa using hfr)
    unfold getRole
    rw [hfetch]
    simp only [hcollect]
    simp [List.map_flatten]

/-- C6 witness: with two single-item pages the resolver sees both items —
a matcher that only matches the second page's item still matches. -/
theorem c6_pagination_accumulates_all_witness :
    getAccount envPages 2 tokA (fun a => a.name == "Two") =
      accountResolve envPages
        [{ accountId := "111", name := "One" }, { accountId := "222", name := "Two" }]
        (fun a => a.name == "Two") ∧
    (getAccount envPages 2 tokA (fun a => a.name == "Two")).val =
      .ok { accountId := "222", name := "Two" } ∧
    getRole envPages 2 tokA "222" (fun r => r.name == "RoleTwo") =
      roleResolve envPages
        [{ accountId := "222", name := "RoleOne" }, { accountId := "222", name := "RoleTwo" }]
        (fun r => r.name == "RoleTwo") ∧
    (getRole envPages 2 tokA "222" (fun r => r.name == "RoleTwo")).val =
      .ok { accountId := "222", name := "RoleTwo" } := by
  have h := c6_pagination_accumulates_all envPages 2 tokA "222"
    [[{ accountId := "111", accountName := "One" }],
     [{ accountId := "222", accountName := "Two" }]]
    [[{ roleName := "RoleOne" }], [{ roleName := "RoleTwo" }]]
    (fun a => a.name == "Two") (fun r => r.name == "RoleTwo")
    (fun tok => rfl) (fun tok => rfl) (by decide) (by decide) (by decide)
  refine ⟨h.1, ?_, h.2, ?_⟩
  · rw [h.1]
    rfl
  · rw [h.2]
    rfl

/-- Both branches of the org chooser present exactly the candidate rows
they were given. -/
theorem orgUrlChoose_selectPrompt (env : Env) (cache : Cache)
    (su ms : List SSOOrgUrl) :
    (orgUrlChoose env cache su ms).selectPrompt =
      some (ms.map (fun s => { title := s.name, value := s })) := by
  simp only [orgUrlChoose]
  split <;> rfl

/-- C5 counterexample: with one cached org named `Prod` and the filter
`Dev`, `getOrgUrl` has zero matches and invokes the chooser with the empty
filtered list, not with the entire unfiltered candidate list
(`[sentinelOrg, prodOrg]`). -/
theorem c5_zero_match_counterexample :
    (getOrgUrl envA cacheWithUrls (fun s => s.name == "Dev")).selectPrompt = some [] ∧
    ([sentinelOrg, prodOrg].map
      (fun s => ({ title := s.name, value := s } : Choice SSOOrgUrl))) ≠ [] := by
  exact ⟨rfl, by decide⟩

/-- C5 (amended): the account and role resolvers behave as claimed — one
match returns verbatim with no prompt, several matches prompt with the
filtered set, zero matches prompt with the entire list.  `getOrgUrl`
differs: a unique match is returned without prompting only when it is not
the add-new sentinel, and zero matches prompt with the empty filtered list
rather than the entire candidate list (several matches prompt with the
filtered list). -/
theorem c5_match_count_behavior :
    (∀ (env : Env) (accounts : List SSOAccount) (ma : SSOAccount → Bool) (a : SSOAccount),
      accounts.filter ma = [a] →
      accountResolve env accounts ma =
        { val := .ok { accountId := a.accountId, name := a.name }, selectPrompt := none }) ∧
    (∀ (env : Env) (accounts : List SSOAccount) (ma : SSOAccount → Bool),
      2 ≤ (accounts.filter ma).length →
      ∃ cs, (accountResolve env accounts ma).selectPrompt = some cs ∧
        (cs.map (fun c => c.value)).Perm (accounts.filter ma)) ∧
    (∀ (env : Env) (accounts : List SSOAccount) (ma : SSOAccount → Bool),
      accounts.filter ma = [] →
      ∃ cs, (accountResolve env accounts ma).selectPrompt = some cs ∧
        (cs.map (fun c => c.value)).Perm accounts) ∧
    (∀ (env : Env) (roles : List SSORole) (mr : SSORole → Bool) (r : SSORole),
      roles.filter mr = [r] →
      roleResolve env roles mr =
        { val := .ok { accountId := r.accountId, name := r.name }, selectPrompt := none }) ∧
    (∀ (env : Env) (roles : List SSORole) (mr : SSORole → Bool),
      2 ≤ (roles.filter mr).length →
      ∃ cs, (roleResolve env roles mr).selectPrompt = some cs ∧
        (cs.map (fun c => c.value)).Perm (roles.filter mr)) ∧
    (∀ (env : Env) (roles : List SSORole) (mr : SSORole → Bool),
      roles.filter mr = [] →
      ∃ cs, (roleResolve env roles mr).selectPrompt = some cs ∧
        (cs.map (fun c => c.value)).Perm roles) ∧
    (∀ (env : Env) (cache : Cache) (m : SSOOrgUrl → Bool)
       (cached startUrls : List SSOOrgUrl),
      cache "startUrls" = some (.urlList cached) →
      startUrls = (if (cached.find? (fun s => s.startUrl = none)).isSome then cached
                   else sentinelOrg :: cached) →
      ((∀ s, startUrls.filter m = [s] → s.startUrl ≠ none →
          getOrgUrl env cache m =
            { val := .ok s, cache := cache, selectPrompt := none, textPrompts := 0 }) ∧
       (startUrls.filter m = [] →
          (getOrgUrl env cache m).selectPrompt = some []) ∧
       (2 ≤ (startUrls.filter m).length →
          (getOrgUrl env cache m).selectPrompt =
            some ((startUrls.filter m).map (fun s => { title := s.name, value := s }))))) := by
  have perm_map : ∀ {α : Type} (pool : List α) (mk : α → Choice α),
      (∀ x, (mk x).value = x) →
      ((sortByJs (fun x y => locLe x.title y.title) (pool.map mk)).map
        (fun c => c.value)).Perm pool := by
    intro α pool mk hmk
    have hp := (sortByJs_perm (fun x y => locLe x.title y.title)
      (pool.map mk)).map (fun c => c.value)
    rw [List.map_map] at hp
    have : ((fun c => c.value) ∘ mk) = id := by
      funext x
      exact hmk x
    rwa [this, List.map_id] at hp
  refine ⟨?_, ?_, ?_, ?_, ?_, ?_, ?_⟩
  · intro env accounts ma a hf
    simp [accountResolve, hf]
  · intro env accounts ma hlen
    obtain ⟨x, y, rest, hxy⟩ : ∃ x y rest, accounts.filter ma = x :: y :: rest := by
      rcases h : accounts.filter ma with _ | ⟨x, _ | ⟨y, rest⟩⟩
      · rw [h] at hlen; simp at hlen
      · rw [h] at hlen; simp at hlen
      · exact ⟨_, _, _, rfl⟩
    have hsp : (accountResolve env accounts ma).selectPrompt =
        some (sortByJs (fun u v => locLe u.title v.title)
          ((x :: y :: rest).map
            (fun a => ({ title := a.name, value := a } : Choice SSOAccount)))) := by
      simp [accountResolve, hxy]
    refine ⟨_, hsp, ?_⟩
    rw [hxy]
    exact perm_map _ _ (fun z => rfl)
  · intro env accounts ma hf
    have hsp : (accountResolve env accounts ma).selectPrompt =
        some (sortByJs (fun u v => locLe u.title v.title)
          (accounts.map
            (fun a => ({ title := a.name, value := a } : Choice SSOAccount)))) := by
      simp [accountResolve, hf]
    exact ⟨_, hsp, perm_map _ _ (fun z => rfl)⟩
  · intro env roles mr r hf
    simp [roleResolve, hf]
  · intro env roles mr hlen
    obtain ⟨x, y, rest, hxy⟩ : ∃ x y rest, roles.filter mr = x :: y :: rest := by
      rcases h : roles.filter mr with _ | ⟨x, _ | ⟨y, rest⟩⟩
      · rw [h] at hlen; simp at hlen
      · rw [h] at hlen; simp at hlen
      · exact ⟨_, _, _, rfl⟩
    have hsp : (roleResolve env roles mr).selectPrompt =
        some (sortByJs (fun u v => locLe u.title v.title)
          ((x :: y :: rest).map
            (fun r => ({ title := r.name, value := r } : Choice SSORole)))) := by
      simp [roleResolve, hxy]
    refine ⟨_, hsp, ?_⟩
    rw [hxy]
    exact perm_map _ _ (fun z => rfl)
  · intro env roles mr hf
    have hsp : (roleResolve env roles mr).selectPrompt =
        some (sortByJs (fun u v => locLe u.title v.title)
          (roles.map
            (fun r => ({ title := r.name, value := r } : Choice SSORole)))) := by
      simp [roleResolve, hf]
    exact ⟨_, hsp, perm_map _ _ (fun z => rfl)⟩
  · intro env cache m cached startUrls hcache hsu
    refine ⟨?_, ?_, ?_⟩
    · intro s hf hnn
      simp only [getOrgUrl, hcache, orgUrlResolve]
      rw [← hsu, hf]
      simp [hnn]
    · intro hf
      simp only [getOrgUrl, hcache, orgUrlResolve]
      rw [← hsu, hf]
      simp [orgUrlChoose_selectPrompt]
    · intro hlen
      obtain ⟨x, y, rest, hxy⟩ : ∃ x y rest, startUrls.filter m = x :: y :: rest := by
        rcases h : startUrls.filter m with _ | ⟨x, _ | ⟨y, rest⟩⟩
        · rw [h] at hlen; simp at hlen
        · rw [h] at hlen; simp at hlen
        · exact ⟨_, _, _, rfl⟩
      simp only [getOrgUrl, hcache, orgUrlResolve]
      rw [← hsu, hxy]
      simp [orgUrlChoose_selectPrompt, ← hxy]

/-- C5 witness: a unique account match returns verbatim without prompting;
a zero-match account resolution prompts with (a permutation of) the whole
list; the unique non-sentinel org match returns without prompting; the
zero-match org resolution prompts with the empty list. -/
theorem c5_match_count_behavior_witness :
    accountResolve envA
        [{ accountId := "1", name := "One" }, { accountId := "2", name := "Two" }]
        (fun a => a.name == "Two") =
      { val := .ok { accountId := "2", name := "Two" }, selectPrompt := none } ∧
    (∃ cs, (accountResolve envA
        [{ accountId := "1", name := "One" }, { accountId := "2", name := "Two" }]
        (fun a => a.name == "Zed")).selectPrompt = some cs ∧
      (cs.map (fun c => c.value)).Perm
        [{ accountId := "1", name := "One" }, { accountId := "2", name := "Two" }]) ∧
    getOrgUrl envA cacheWithUrls (fun s => s.name == "Prod") =
      { val := .ok prodOrg, cache := cacheWithUrls, selectPrompt := none, textPrompts := 0 } ∧
    (getOrgUrl envA cacheWithUrls (fun s => s.name == "Dev")).selectPrompt = some [] := by
  refine ⟨?_, ?_, ?_, ?_⟩
  · exact c5_match_count_behavior.1 envA _ _ { accountId := "2", name := "Two" } (by decide)
  · exact c5_match_count_behavior.2.2.1 envA _ _ (by decide)
  · exact (c5_match_count_behavior.2.2.2.2.2.2 envA cacheWithUrls _ [prodOrg]
      (sentinelOrg :: [prodOrg]) (by decide) (by decide)).1 prodOrg (by decide) (by decide)
  · exact (c5_match_count_behavior.2.2.2.2.2.2 envA cacheWithUrls _ [prodOrg]
      (sentinelOrg :: [prodOrg]) (by decide) (by decide)).2.1 (by decide)

/-- Any chooser row list built by the account filter/choose tail is sorted
by the modelled `localeCompare` order. -/
theorem accountResolve_selectPrompt_sorted (env : Env) (accounts : List SSOAccount)
    (ma : SSOAccount → Bool) (cs : List (Choice SSOAccount))
    (h : (accountResolve env accounts ma).selectPrompt = some cs) :
    List.Pairwise (fun x y => locLe x.title y.title = true) cs := by
  simp only [accountResolve] at h
  revert h
  split
  · intro h
    simp at h
  · intro h
    rw [Option.some.injEq] at h
    subst h
    exact sortByJs_pairwise _
      (fun a b c hab hbc => locLe_trans a.title b.title c.title hab hbc)
      (fun a b => locLe_total a.title b.title) _

/-- Any chooser row list built by the role filter/choose tail is sorted by
the modelled `localeCompare` order. -/
theorem roleResolve_selectPrompt_sorted (env : Env) (roles : List SSORole)
    (mr : SSORole → Bool) (cs : List (Choice SSORole))
    (h : (roleResolve env roles mr).selectPrompt = some cs) :
    List.Pairwise (fun x y => locLe x.title y.title = true) cs := by
  simp only [roleResolve] at h
  revert h
  split
  · intro h
    simp at h
  · intro h
    rw [Option.some.injEq] at h
    subst h
    exact sortByJs_pairwise _
      (fun a b c hab hbc => locLe_trans a.title b.title c.title hab hbc)
      (fun a b => locLe_total a.title b.title) _

/-- C9 counterexample: with the two account names `a` and `B` the chooser
receives the rows in the order `a`, `B` — the order `localeCompare`
produces — which is not sorted in case-sensitive lexicographic (code-unit)
order, since `B` (66) precedes `a` (97) there. -/
theorem c9_sort_counterexample :
    (getAccount envTwoAccounts 1 tokA (fun _ => true)).selectPrompt =
      some [{ title := "a", value := { accountId := "100", name := "a" } },
            { title := "B", value := { accountId := "200", name := "B" } }] ∧
    ¬ sortedByLex
        [({ title := "a", value := { accountId := "100", name := "a" } } : Choice SSOAccount),
         { title := "B", value := { accountId := "200", name := "B" } }] := by
  constructor
  · rfl
  · intro h
    rcases h with _ | ⟨h1, _⟩
    have hx := h1 _ (List.mem_cons_self _ _)
    exact absurd hx (by decide)

/-- C9 (amended): every multi-candidate row list the account and role
resolvers hand to the chooser is sorted by the locale-aware `localeCompare`
comparator (case-insensitive primary comparison, lowercase before uppercase
on ties), not by case-sensitive code-unit order. -/
theorem c9_chooser_rows_locale_sorted (env : Env) (fuel : Nat) (token : SSOToken)
    (accountId : String) (ma : SSOAccount → Bool) (mr : SSORole → Bool) :
    (∀ cs, (getAccount env fuel token ma).selectPrompt = some cs →
      List.Pairwise (fun x y => locLe x.title y.title = true) cs) ∧
    (∀ cs, (getRole env fuel token accountId mr).selectPrompt = some cs →
      List.Pairwise (fun x y => locLe x.title y.title = true) cs) := by
  constructor
  · intro cs h
    simp only [getAccount] at h
    revert h
    split
    · intro h
      simp at h
    · intro h
      exact accountResolve_selectPrompt_sorted env _ ma cs h
  · intro cs h
    simp only [getRole] at h
    revert h
    split
    · intro h
      simp at h
    · intro h
      exact roleResolve_selectPrompt_sorted env _ mr cs h

/-- C9 witness: the concrete two-account row list is sorted by the
`localeCompare` order. -/
theorem c9_chooser_rows_locale_sorted_witness :
    List.Pairwise (fun (x y : Choice SSOAccount) => locLe x.title y.title = true)
      [{ title := "a", value := { accountId := "100", name := "a" } },
       { title := "B", value := { accountId := "200", name := "B" } }] :=
  (c9_chooser_rows_locale_sorted envTwoAccounts 1 tokA "" (fun _ => true)
    (fun _ => true)).1 _ rfl

/-- C8: in a collaborator environment with exactly one matching org, one
matching account, one matching role and a fresh cached token,
`authenticate` threads the five stages in order with zero interactive
prompts and returns credentials whose `expireTime` is the date built from
the collaborator's `expiration` field; a failing credential fetch aborts
the sequence with that error, and in general a failing token stage aborts
before the account stage. -/
theorem c8_authenticate_composition (env : Env) (fuel : Nat) (cache : Cache)
    (matchOrg : SSOOrgUrl → Bool) (matchAcc : SSOAccount → Bool) (matchRole : SSORole → Bool)
    (org : SSOOrgUrl) (e : TokenCacheEntry) (ra : RawAccount) (rr : RawRole)
    (hurls : cache "startUrls" = some (.urlList [org]))
    (hnn : org.startUrl ≠ none)
    (hmo : matchOrg org = true) (hms : matchOrg sentinelOrg = false)
    (htok : cache (tokenCacheKey org) = some (.tokenEntry e))
    (hfresh : env.nowAtCheck < e.expireTime)
    (hacc : env.listAccounts e.token.accessToken none =
      .ok { items := [ra], nextToken := none })
    (hma : matchAcc { accountId := ra.accountId, name := ra.accountName } = true)
    (hrole : env.listAccountRoles e.token.accessToken ra.accountId none =
      .ok { items := [rr], nextToken := none })
    (hmr : matchRole { accountId := ra.accountId, name := rr.roleName } = true)
    (hfuel : 1 ≤ fuel) :
    (∀ c, env.getRoleCredentials e.token.accessToken ra.accountId rr.roleName = .ok c →
      authenticate env fuel cache matchOrg matchAcc matchRole =
        { val := .ok { accessKeyId := c.accessKeyId, secretAccessKey := c.secretAccessKey,
                       sessionToken := c.sessionToken, expireTime := c.expiration },
          cache := cache, prompts := 0 }) ∧
    (∀ m, env.getRoleCredentials e.token.accessToken ra.accountId rr.roleName = .error m →
      (authenticate env fuel cache matchOrg matchAcc matchRole).val = .error (.api m) ∧
      (authenticate env fuel cache matchOrg matchAcc matchRole).prompts = 0) ∧
    (∀ (env2 : Env) (cache2 : Cache) (mo : SSOOrgUrl → Bool) (ma2 : SSOAccount → Bool)
       (mr2 : SSORole → Bool) (fuel2 : Nat) (o2 : SSOOrgUrl) (e2 : AuthError),
      (getOrgUrl env2 cache2 mo).val = .ok o2 →
      (getToken env2 (getOrgUrl env2 cache2 mo).cache o2).val = .error e2 →
      (authenticate env2 fuel2 cache2 mo ma2 mr2).val = .error e2) := by
  have hfind : ([org].find? (fun s => decide (s.startUrl = none))).isSome = false := by
    simp [List.find?, hnn]
  have h1 : getOrgUrl env cache matchOrg =
      { val := .ok org, cache := cache, selectPrompt := none, textPrompts := 0 } := by
    simp [getOrgUrl, hurls, orgUrlResolve, hfind, List.filter_cons, hms, hmo, hnn]
  have h2 : getToken env cache org =
      { val := .ok e.token, cache := cache, networkCalls := 0, attempts := 0, delays := [] } := by
    simp [getToken, htok, hfresh]
  obtain ⟨f, rfl⟩ : ∃ f, fuel = f + 1 := ⟨fuel - 1, by omega⟩
  have h3 : getAccount env (f + 1) e.token matchAcc =
      { val := .ok { accountId := ra.accountId, name := ra.accountName },
        selectPrompt := none } := by
    simp [getAccount, collectLoop, hacc, Except.map, accountResolve, hma]
  have h4 : getRole env (f + 1) e.token ra.accountId matchRole =
      { val := .ok { accountId := ra.accountId, name := rr.roleName },
        selectPrompt := none } := by
    simp [getRole, collectLoop, hrole, Except.map, roleResolve, hmr]
  refine ⟨?_, ?_, ?_⟩
  · intro c hc
    simp [authenticate, h1, h2, h3, h4, getRoleCredentials, hc,
      OrgUrlOut.promptCount, AccountOut.promptCount, RoleOut.promptCount]
  · intro m hm
    constructor <;>
      simp [authenticate, h1, h2, h3, h4, getRoleCredentials, hm,
        OrgUrlOut.promptCount, AccountOut.promptCount, RoleOut.promptCount]
  · intro env2 cache2 mo ma2 mr2 fuel2 o2 e2 ho he
    simp [authenticate, ho, he]

/-- C8 witness: the scripted single-org, single-account, single-role
environment yields the credentials with `expireTime` 777 and zero prompts. -/
theorem c8_authenticate_composition_witness :
    authenticate envAuth 1 cacheAuth (fun s => s.name == "Prod")
        (fun a => a.name == "Acc1") (fun r => r.name == "Role1") =
      { val := .ok { accessKeyId := "AK", secretAccessKey := "SK",
                     sessionToken := "ST", expireTime := 777 },
        cache := cacheAuth, prompts := 0 } := by
  exact (c8_authenticate_composition envAuth 1 cacheAuth
      (fun s => s.name == "Prod") (fun a => a.name == "Acc1") (fun r => r.name == "Role1")
      prodOrg { token := tokA, expireTime := 1000 }
      { accountId := "111", accountName := "Acc1" } { roleName := "Role1" }
      (by decide) (by decide) (by decide) (by decide) (by decide) (by decide)
      rfl (by decide) rfl (by decide) (by decide)).1
    { accessKeyId := "AK", secretAccessKey := "SK", sessionToken := "ST", expiration := 777 }
    rfl

end AwsSimpleSso
